import Mathlib

/-!
Verification of the Menu Availability Scheduler of EoDeliveryForOffices.

The TypeScript sources are shallowly embedded: calendar dates are either
their canonical YYYY-MM-DD strings (where the holiday table and weekday
computation matter) or serial day numbers (where only day arithmetic
matters); JS Set becomes Finset, JS objects-as-maps become functions into
Option, the key-value store becomes an association list, and fallible
handlers return Except.
-/

/-- Error kinds of the scheduler (spec section 7). -/
inductive AppError where
  | validationError (msg : String)
  | invalidOperation (msg : String)
  | notFound (msg : String)
deriving DecidableEq

/-- JS-style whitespace test used by String.prototype.trim. -/
def isJsSpace (c : Char) : Bool :=
  c = ' ' || c = '\t' || c = '\n' || c = '\r' || c = '\x0c' || c = '\x0b'

/-- Model of JS String.prototype.trim: drop whitespace at both ends. -/
def jsTrim (s : String) : String :=
  ⟨((s.data.dropWhile isJsSpace).reverse.dropWhile isJsSpace).reverse⟩

/-- Split a character list at each occurrence of the dash, as JS
String.prototype.split with separator "-" does. -/
def splitDash : List Char → List (List Char)
  | [] => [[]]
  | c :: cs =>
    if c = '-' then [] :: splitDash cs
    else
      match splitDash cs with
      | [] => [[c]]
      | g :: gs => (c :: g) :: gs

/-- Decimal digit value of a character, if it is a digit. -/
def charDigit? (c : Char) : Option Nat :=
  if '0' ≤ c ∧ c ≤ '9' then some (c.toNat - '0'.toNat) else none

/-- Accumulating decimal parser over a character list. -/
def parseNatGo : List Char → Nat → Option Nat
  | [], acc => some acc
  | c :: cs, acc =>
    match charDigit? c with
    | some d => parseNatGo cs (acc * 10 + d)
    | none => none

/-- Parse a non-empty all-digit character list as a natural number
(model of JS Number(...) on the date components actually supplied). -/
def parseNat? : List Char → Option Nat
  | [] => none
  | cs => parseNatGo cs 0

/-- Parse a YYYY-MM-DD string into (year, month, day); none models the
NaN components JS produces on malformed input. -/
def parseDate (s : String) : Option (Nat × Nat × Nat) :=
  match (splitDash s.data).map parseNat? with
  | [some y, some m, some d] => some (y, m, d)
  | _ => none

/-- Zeller's congruence: day of week with 0 = Saturday. -/
def zellerDay (y m d : Nat) : Nat :=
  let ym := if m < 3 then (y - 1, m + 12) else (y, m)
  let K := ym.1 % 100
  let J := ym.1 / 100
  (d + 13 * (ym.2 + 1) / 5 + K + K / 4 + J / 4 + 5 * J) % 7

/-- Day of week with 0 = Sunday, 6 = Saturday, as JS Date.getDay returns
for a date built from calendar components (CalendarMenuManager.isWeekend). -/
def weekdayIndex (y m d : Nat) : Nat :=
  (zellerDay y m d + 6) % 7

/-- CalendarMenuManager.isWeekend / WeeklyMenuManager.isWeekend:
parse the YYYY-MM-DD components and test for Sunday (0) or Saturday (6).
A malformed date gives NaN in JS and the weekday comparisons are false. -/
def isWeekend (date : String) : Bool :=
  match parseDate date with
  | some (y, m, d) => weekdayIndex y m d == 0 || weekdayIndex y m d == 6
  | none => false

/-- TAIWAN_HOLIDAYS_2026 from CalendarMenuManager.tsx. -/
def TAIWAN_HOLIDAYS_2026 : List (String × String) :=
  [("2026-01-01", "元旦"),
   ("2026-02-16", "農曆除夕"),
   ("2026-02-17", "春節"),
   ("2026-02-18", "春節"),
   ("2026-02-19", "春節"),
   ("2026-02-20", "春節"),
   ("2026-02-28", "和平紀念日"),
   ("2026-04-03", "清明節"),
   ("2026-04-04", "清明節"),
   ("2026-04-05", "清明節"),
   ("2026-06-25", "端午節"),
   ("2026-06-26", "端午節"),
   ("2026-06-27", "端午節"),
   ("2026-10-01", "中秋節"),
   ("2026-10-02", "中秋節"),
   ("2026-10-09", "國慶日"),
   ("2026-10-10", "國慶日")]

/-- CalendarMenuManager.isHoliday: key membership in the static table. -/
def isHoliday (date : String) : Bool :=
  TAIWAN_HOLIDAYS_2026.any (fun p => p.1 == date)

/-- CalendarMenuManager.getHolidayName: table lookup with "" default. -/
def getHolidayName (date : String) : String :=
  ((TAIWAN_HOLIDAYS_2026.find? (fun p => p.1 == date)).map (fun p => p.2)).getD ""

/-- One weekend-override record of the WeekendStatus component state. -/
structure WeekendEntry where
  isEnabled : Bool
  reason : String
deriving DecidableEq

/-- The WeekendStatus map, date string to optional override entry. -/
def WeekendStatus : Type := String → Option WeekendEntry

/-- CalendarMenuManager.isWeekendEnabled: weekendStatus[date]?.isEnabled || false. -/
def isWeekendEnabled (ws : WeekendStatus) (date : String) : Bool :=
  match ws date with
  | some e => e.isEnabled
  | none => false

/-- Insertion/replacement of an override entry in the WeekendStatus map. -/
def updateWS (ws : WeekendStatus) (date : String) (e : WeekendEntry) : WeekendStatus :=
  fun d => if d = date then some e else ws d

/-- CalendarMenuManager.handleEnableWeekend: reject a blank justification,
otherwise store the trimmed reason with the enabled flag set. -/
def handleEnableWeekend (ws : WeekendStatus) (date reason : String) :
    Except AppError WeekendStatus :=
  if jsTrim reason == "" then .error (.validationError "請填寫開放週末的原因")
  else .ok (updateWS ws date ⟨true, jsTrim reason⟩)

/-- Whether ordering is open on a date: CalendarMenuManager renders a date
as closed exactly when holiday || (weekend && !weekendAllowed), where
weekendAllowed means the weekend override is enabled for that date. -/
def isOrderingOpen (date : String) (ws : WeekendStatus) : Bool :=
  !(isHoliday date || (isWeekend date && !isWeekendEnabled ws date))

/-- Apply a sequence of handleEnableWeekend calls (date, reason), ignoring
the failed ones, to an initial WeekendStatus. -/
def runOverrides (ws : WeekendStatus) (calls : List (String × String)) : WeekendStatus :=
  calls.foldl
    (fun w c =>
      match handleEnableWeekend w c.1 c.2 with
      | .ok w2 => w2
      | .error _ => w) ws

/-- C2: a date in the static holiday table is closed for ordering under
every overrides set, in particular under any overrides set produced by a
sequence of weekend-override calls from the empty state. -/
theorem holiday_never_open (d : String) (h : isHoliday d = true) :
    (∀ ws : WeekendStatus, isOrderingOpen d ws = false) ∧
    (∀ calls : List (String × String),
      isOrderingOpen d (runOverrides (fun _ => none) calls) = false) := by
  constructor
  · intro ws
    simp [isOrderingOpen, h]
  · intro calls
    simp [isOrderingOpen, h]

/-- C2 witness: 2026-02-17 (春節) stays closed with no override and after
a weekend-override call naming that very date. -/
theorem holiday_never_open_witness :
    isHoliday "2026-02-17" = true ∧
    isOrderingOpen "2026-02-17" (fun _ => none) = false ∧
    isOrderingOpen "2026-02-17"
      (runOverrides (fun _ => none) [("2026-02-17", "party")]) = false :=
  ⟨by decide,
   (holiday_never_open "2026-02-17" (by decide)).1 _,
   (holiday_never_open "2026-02-17" (by decide)).2 _⟩

/-- CustomerApp.isDateSelectable over day-serial numbers: after zeroing
the time components, the picked date must reach tomorrow = today + 1. -/
def isDateSelectable (dateSerial todaySerial : Nat) : Bool :=
  decide (todaySerial + 1 ≤ dateSerial)

/-- CustomerApp.canOrderForDate simply delegates to isDateSelectable. -/
def canOrderForDate (dateSerial todaySerial : Nat) : Bool :=
  isDateSelectable dateSerial todaySerial

/-- C3: a date is selectable iff it lies strictly after today; today and
every earlier date are rejected, today + 1 and beyond accepted, and
canOrderForDate adds no further condition. -/
theorem isDateSelectable_spec (d t : Nat) :
    (isDateSelectable d t = true ↔ t < d) ∧
    (d ≤ t → isDateSelectable d t = false) ∧
    (t + 1 ≤ d → isDateSelectable d t = true) ∧
    canOrderForDate d t = isDateSelectable d t := by
  refine ⟨?_, ?_, ?_, rfl⟩
  · simp [isDateSelectable]
    omega
  · intro h
    simp [isDateSelectable]
    omega
  · intro h
    simp [isDateSelectable]
    omega

/-- C3 witness: with today = 10, day 10 and day 9 are not selectable while
day 11 is, and canOrderForDate agrees. -/
theorem isDateSelectable_spec_witness :
    (10 ≤ 10 ∧ isDateSelectable 10 10 = false) ∧
    (9 ≤ 10 ∧ isDateSelectable 9 10 = false) ∧
    (10 + 1 ≤ 11 ∧ isDateSelectable 11 10 = true) ∧
    canOrderForDate 11 10 = isDateSelectable 11 10 :=
  ⟨⟨by decide, (isDateSelectable_spec 10 10).2.1 (by decide)⟩,
   ⟨by decide, (isDateSelectable_spec 9 10).2.1 (by decide)⟩,
   ⟨by decide, (isDateSelectable_spec 11 10).2.2.1 (by decide)⟩,
   (isDateSelectable_spec 11 10).2.2.2⟩

/-- C4 counterexample: 2026-02-28 is a Saturday and also a listed holiday.
Enabling the weekend override there with the non-blank justification
" staff event " succeeds, but the stored reason is the trimmed string
(not the justification as supplied) and the date still reads as closed,
contradicting the claim that the date becomes open whenever it is a
weekend and that the entry holds the justification verbatim. -/
theorem enableOverride_counterexample :
    ∃ ws2, handleEnableWeekend (fun _ => none) "2026-02-28" " staff event " = .ok ws2 ∧
      isWeekend "2026-02-28" = true ∧
      isHoliday "2026-02-28" = true ∧
      ws2 "2026-02-28" = some ⟨true, "staff event"⟩ ∧
      (∀ e, ws2 "2026-02-28" = some e → e.reason ≠ " staff event ") ∧
      isOrderingOpen "2026-02-28" ws2 = false :=
  ⟨updateWS (fun _ => none) "2026-02-28" ⟨true, jsTrim " staff event "⟩,
   rfl, by decide, by decide, by decide, by decide, by decide⟩

/-- C4 amended: a blank (empty or whitespace-only) justification fails with
a validation error and produces no overrides set; a non-blank one stores
the enabled entry with the trimmed justification, leaving other dates
untouched, after which the date reads as open provided it is not a
holiday — whether or not it is a weekend. -/
theorem enableOverride_spec (ws : WeekendStatus) (d j : String) :
    (jsTrim j = "" → handleEnableWeekend ws d j = .error (.validationError "請填寫開放週末的原因")) ∧
    (jsTrim j ≠ "" →
      ∃ ws2, handleEnableWeekend ws d j = .ok ws2 ∧
        ws2 d = some ⟨true, jsTrim j⟩ ∧
        (∀ d2, d2 ≠ d → ws2 d2 = ws d2) ∧
        (isHoliday d = false → isOrderingOpen d ws2 = true)) := by
  constructor
  · intro h
    simp [handleEnableWeekend, h]
  · intro h
    refine ⟨updateWS ws d ⟨true, jsTrim j⟩, ?_, ?_, ?_, ?_⟩
    · simp [handleEnableWeekend, h]
    · simp [updateWS]
    · intro d2 hd2
      simp [updateWS, hd2]
    · intro hh
      simp [isOrderingOpen, hh, isWeekendEnabled, updateWS]

/-- C4 witness: 2026-03-14 is a Saturday and not a holiday; enabling it
with justification "staff event" stores the entry and opens the date. -/
theorem enableOverride_spec_witness :
    isWeekend "2026-03-14" = true ∧ jsTrim "staff event" ≠ "" ∧
    (∃ ws2, handleEnableWeekend (fun _ => none) "2026-03-14" "staff event" = .ok ws2 ∧
      ws2 "2026-03-14" = some ⟨true, jsTrim "staff event"⟩ ∧
      (∀ d2, d2 ≠ "2026-03-14" → ws2 d2 = (fun _ => none : WeekendStatus) d2) ∧
      (isHoliday "2026-03-14" = false → isOrderingOpen "2026-03-14" ws2 = true)) :=
  ⟨by decide, by decide,
   (enableOverride_spec (fun _ => none) "2026-03-14" "staff event").2 (by decide)⟩

/-- MenuItem record shared by the menu managers. -/
structure MenuItem where
  id : String
  restaurantId : String
  name : String
  description : String
  price : Nat
  imageUrl : String
deriving DecidableEq

/-- Per-restaurant, per-date selection state: every item selected,
strictly between, or none (spec: ALL / PARTIAL / NONE, here named
selAll / selMixed / selNone). -/
inductive SelState where
  | selNone
  | selMixed
  | selAll
deriving DecidableEq

/-- The allSelected / someSelected computation rendered by the weekly and
calendar managers, folded into a single three-valued state. -/
def selectionState (itemIds : List String) (s : Finset String) : SelState :=
  let allSelected := itemIds.all (fun i => decide (i ∈ s))
  let someSelected := itemIds.any (fun i => decide (i ∈ s))
  if allSelected then .selAll else if someSelected then .selMixed else .selNone

/-- Identifiers of the catalog items belonging to one restaurant
(handleToggleRestaurant: filter by restaurantId, then map to id). -/
def restaurantItemIds (allMenuItems : List MenuItem) (restaurantId : String) : List String :=
  (allMenuItems.filter (fun item => item.restaurantId == restaurantId)).map
    (fun item => item.id)

/-- Membership flip of one identifier in a selection set. -/
def toggleSet (s : Finset String) (i : String) : Finset String :=
  if i ∈ s then s.erase i else insert i s

/-- handleToggleItem of WeeklyMenuManager / CalendarMenuManager: flip the
item's membership in the given date's set, leaving other dates alone.
The date-keyed record with missing keys read as empty sets is modelled
as a total map into Finset String, generic in the key type. -/
def handleToggleItem {α : Type} [DecidableEq α] (menus : α → Finset String)
    (date : α) (itemId : String) : α → Finset String :=
  fun d => if d = date then toggleSet (menus d) itemId else menus d

/-- handleToggleRestaurant of WeeklyMenuManager / CalendarMenuManager:
when every item of the restaurant is already in the date's set, delete
them all, otherwise add them all. -/
def handleToggleRestaurant {α : Type} [DecidableEq α] (allMenuItems : List MenuItem)
    (menus : α → Finset String) (date : α) (restaurantId : String) : α → Finset String :=
  let ids := restaurantItemIds allMenuItems restaurantId
  let allSelected := ids.all (fun i => decide (i ∈ menus date))
  fun d =>
    if d = date then
      if allSelected then ids.foldl Finset.erase (menus date)
      else ids.foldl (fun t i => insert i t) (menus date)
    else menus d

theorem mem_foldl_erase (ids : List String) (s : Finset String) (a : String) :
    a ∈ ids.foldl Finset.erase s ↔ a ∈ s ∧ a ∉ ids := by
  induction ids generalizing s with
  | nil => simp
  | cons i is ih =>
    simp only [List.foldl_cons, ih, Finset.mem_erase, List.mem_cons]
    tauto

theorem mem_foldl_insert (ids : List String) (s : Finset String) (a : String) :
    a ∈ ids.foldl (fun t i => insert i t) s ↔ a ∈ s ∨ a ∈ ids := by
  induction ids generalizing s with
  | nil => simp
  | cons i is ih =>
    simp only [List.foldl_cons, ih, Finset.mem_insert, List.mem_cons]
    tauto

theorem selectionState_of_all (ids : List String) (s : Finset String)
    (h : ∀ i ∈ ids, i ∈ s) : selectionState ids s = .selAll := by
  have hall : ids.all (fun i => decide (i ∈ s)) = true := by
    simp only [List.all_eq_true, decide_eq_true_eq]
    exact h
  simp [selectionState, hall]

theorem selectionState_of_none (ids : List String) (s : Finset String)
    (hne : ids ≠ []) (h : ∀ i ∈ ids, i ∉ s) : selectionState ids s = .selNone := by
  have hsome : ids.any (fun i => decide (i ∈ s)) = false := by
    simp only [List.any_eq_false, decide_eq_true_eq]
    exact h
  have hall : ids.all (fun i => decide (i ∈ s)) = false := by
    cases ids with
    | nil => exact absurd rfl hne
    | cons i is =>
      have : i ∉ s := h i (List.mem_cons_self i is)
      simp [List.all_cons, this]
  simp [selectionState, hall, hsome]

theorem selectionState_eq_selAll_iff (ids : List String) (s : Finset String) :
    selectionState ids s = .selAll ↔ ∀ i ∈ ids, i ∈ s := by
  constructor
  · intro h
    by_cases hall : ids.all (fun i => decide (i ∈ s)) = true
    · simpa only [List.all_eq_true, decide_eq_true_eq] using hall
    · exfalso
      simp only [selectionState, Bool.not_eq_true] at h hall
      rw [hall] at h
      simp only [Bool.false_eq_true, if_false] at h
      split at h <;> simp_all
  · exact selectionState_of_all ids s

theorem not_mem_restaurantItemIds (catalog : List MenuItem) (r : String)
    (item : MenuItem) (hmem : item ∈ catalog) (hr : item.restaurantId ≠ r)
    (hnodup : (catalog.map (fun it => it.id)).Nodup) :
    item.id ∉ restaurantItemIds catalog r := by
  intro h
  unfold restaurantItemIds at h
  rw [List.mem_map] at h
  obtain ⟨item2, h2, hid⟩ := h
  rw [List.mem_filter] at h2
  obtain ⟨h2mem, h2r⟩ := h2
  have heq : item2 = item :=
    List.inj_on_of_nodup_map hnodup h2mem hmem hid
  rw [heq] at h2r
  exact hr (by simpa using h2r)

/-- C5: for a restaurant with at least one catalog item and a catalog with
distinct item identifiers, toggling the restaurant from state ALL yields
state NONE and from any other state yields ALL, while items of other
restaurants and other dates are untouched. -/
theorem handleToggleRestaurant_spec {α : Type} [DecidableEq α]
    (catalog : List MenuItem) (menus : α → Finset String) (date : α) (r : String)
    (hne : restaurantItemIds catalog r ≠ [])
    (hnodup : (catalog.map (fun it => it.id)).Nodup) :
    (selectionState (restaurantItemIds catalog r) (menus date) = .selAll →
      selectionState (restaurantItemIds catalog r)
        (handleToggleRestaurant catalog menus date r date) = .selNone) ∧
    (selectionState (restaurantItemIds catalog r) (menus date) ≠ .selAll →
      selectionState (restaurantItemIds catalog r)
        (handleToggleRestaurant catalog menus date r date) = .selAll) ∧
    (∀ item ∈ catalog, item.restaurantId ≠ r →
      (item.id ∈ handleToggleRestaurant catalog menus date r date ↔
        item.id ∈ menus date)) ∧
    (∀ d, d ≠ date → handleToggleRestaurant catalog menus date r d = menus d) := by
  have hsetall : ∀ h : selectionState (restaurantItemIds catalog r) (menus date) = .selAll,
      handleToggleRestaurant catalog menus date r date
        = (restaurantItemIds catalog r).foldl Finset.erase (menus date) := by
    intro h
    rw [selectionState_eq_selAll_iff] at h
    have hall : (restaurantItemIds catalog r).all (fun i => decide (i ∈ menus date)) = true := by
      simp only [List.all_eq_true, decide_eq_true_eq]
      exact h
    simp [handleToggleRestaurant, hall]
  have hsetnotall : ∀ h : selectionState (restaurantItemIds catalog r) (menus date) ≠ .selAll,
      handleToggleRestaurant catalog menus date r date
        = (restaurantItemIds catalog r).foldl (fun t i => insert i t) (menus date) := by
    intro h
    have hall : (restaurantItemIds catalog r).all (fun i => decide (i ∈ menus date)) = false := by
      by_contra hc
      rw [Bool.not_eq_false] at hc
      exact h (selectionState_of_all _ _
        (by simpa only [List.all_eq_true, decide_eq_true_eq] using hc))
    simp [handleToggleRestaurant, hall]
  refine ⟨?_, ?_, ?_, ?_⟩
  · intro h
    rw [hsetall h]
    refine selectionState_of_none _ _ hne ?_
    intro i hi
    rw [mem_foldl_erase]
    tauto
  · intro h
    rw [hsetnotall h]
    refine selectionState_of_all _ _ ?_
    intro i hi
    rw [mem_foldl_insert]
    tauto
  · intro item hmem hr
    have hnot : item.id ∉ restaurantItemIds catalog r :=
      not_mem_restaurantItemIds catalog r item hmem hr hnodup
    by_cases h : selectionState (restaurantItemIds catalog r) (menus date) = .selAll
    · rw [hsetall h, mem_foldl_erase]
      tauto
    · rw [hsetnotall h, mem_foldl_insert]
      tauto
  · intro d hd
    simp [handleToggleRestaurant, hd]

/-- Sample catalog: two items of restaurant r1, one of restaurant r2. -/
def sampleCatalog : List MenuItem :=
  [⟨"a1", "r1", "A", "", 10, ""⟩,
   ⟨"a2", "r1", "B", "", 20, ""⟩,
   ⟨"b1", "r2", "C", "", 30, ""⟩]

/-- C5 witness: with an empty selection (state NONE) for 2026-03-10,
toggling restaurant r1 yields state ALL, b1 of restaurant r2 stays out,
and other dates keep their sets. -/
theorem handleToggleRestaurant_spec_witness :
    restaurantItemIds sampleCatalog "r1" ≠ [] ∧
    selectionState (restaurantItemIds sampleCatalog "r1")
      ((fun _ => (∅ : Finset String)) "2026-03-10") ≠ SelState.selAll ∧
    selectionState (restaurantItemIds sampleCatalog "r1")
      (handleToggleRestaurant sampleCatalog (fun _ => (∅ : Finset String))
        "2026-03-10" "r1" "2026-03-10") = SelState.selAll ∧
    ("b1" ∈ handleToggleRestaurant sampleCatalog (fun _ => (∅ : Finset String))
        "2026-03-10" "r1" "2026-03-10" ↔
      "b1" ∈ (fun _ => (∅ : Finset String)) "2026-03-10") ∧
    (∀ d, d ≠ "2026-03-10" →
      handleToggleRestaurant sampleCatalog (fun _ => (∅ : Finset String))
        "2026-03-10" "r1" d = (fun _ => (∅ : Finset String)) d) :=
  ⟨by decide, by decide,
   (handleToggleRestaurant_spec sampleCatalog (fun _ => ∅) "2026-03-10" "r1"
      (by decide) (by decide)).2.1 (by decide),
   (handleToggleRestaurant_spec sampleCatalog (fun _ => ∅) "2026-03-10" "r1"
      (by decide) (by decide)).2.2.1 ⟨"b1", "r2", "C", "", 30, ""⟩ (by decide) (by decide),
   (handleToggleRestaurant_spec sampleCatalog (fun _ => ∅) "2026-03-10" "r1"
      (by decide) (by decide)).2.2.2⟩

theorem toggleSet_toggleSet (s : Finset String) (i : String) :
    toggleSet (toggleSet s i) i = s := by
  unfold toggleSet
  by_cases h : i ∈ s
  · rw [if_pos h, if_neg (Finset.not_mem_erase i s)]
    exact Finset.insert_erase h
  · rw [if_neg h, if_pos (Finset.mem_insert_self i s)]
    exact Finset.erase_insert h

/-- C6: toggling the same item identifier twice on the same date restores
the whole date-keyed selection map, hence the date's selection set. -/
theorem handleToggleItem_involution {α : Type} [DecidableEq α]
    (menus : α → Finset String) (date : α) (itemId : String) :
    handleToggleItem (handleToggleItem menus date itemId) date itemId = menus := by
  funext d
  unfold handleToggleItem
  by_cases h : d = date
  · simp only [h, if_pos rfl]
    exact toggleSet_toggleSet (menus date) itemId
  · simp only [if_neg h]

/-- getWeekDates over serial day numbers: the 7 consecutive days starting
at the Monday anchor. -/
def getWeekDatesN (weekStart : Nat) : List Nat :=
  (List.range 7).map (fun i => weekStart + i)

/-- copyFromPreviousDay of WeeklyMenuManager: refuse at the first day of
the week, otherwise overwrite day k's working selection with a snapshot
of day k-1's selection. -/
def copyFromPreviousDay (menus : Nat → Finset String) (weekStart currentIndex : Nat) :
    Except AppError (Nat → Finset String) :=
  if currentIndex = 0 then
    .error (.invalidOperation "這是本週的第一天，無法複製前一天的菜單")
  else
    let dates := getWeekDatesN weekStart
    let previousDate := dates.getD (currentIndex - 1) 0
    let currentDate := dates.getD currentIndex 0
    .ok (fun d => if d = currentDate then menus previousDate else menus d)

theorem getWeekDatesN_getD (s k : Nat) (hk : k < 7) :
    (getWeekDatesN s).getD k 0 = s + k := by
  interval_cases k <;> rfl

/-- C7: copying from the previous day fails with InvalidOperation at week
index 0; at index k > 0 it makes day k's set equal to day k-1's set, and
a later toggle mutation on day k leaves day k-1's set at its value. -/
theorem copyFromPreviousDay_spec (menus : Nat → Finset String) (s k : Nat)
    (hk : k < 7) :
    (k = 0 → copyFromPreviousDay menus s k =
      .error (.invalidOperation "這是本週的第一天，無法複製前一天的菜單")) ∧
    (0 < k →
      ∃ m2, copyFromPreviousDay menus s k = .ok m2 ∧
        m2 (s + k) = menus (s + (k - 1)) ∧
        (∀ i : String,
          handleToggleItem m2 (s + k) i (s + (k - 1)) = menus (s + (k - 1)))) := by
  constructor
  · intro h
    simp [copyFromPreviousDay, h]
  · intro h
    have hk0 : k ≠ 0 := by omega
    have hprev : (getWeekDatesN s).getD (k - 1) 0 = s + (k - 1) :=
      getWeekDatesN_getD s (k - 1) (by omega)
    have hcur : (getWeekDatesN s).getD k 0 = s + k :=
      getWeekDatesN_getD s k hk
    have hne : s + (k - 1) ≠ s + k := by omega
    refine ⟨fun d => if d = (getWeekDatesN s).getD k 0
        then menus ((getWeekDatesN s).getD (k - 1) 0) else menus d, ?_, ?_, ?_⟩
    · simp [copyFromPreviousDay, hk0]
    · rw [hprev, hcur]
      simp
    · intro i
      unfold handleToggleItem
      rw [hprev, hcur]
      simp [hne]

/-- C7 witness: within the week starting at serial day 100, copying into
index 1 gives day 101 the set of day 100, and toggling item A on day 101
afterwards leaves day 100's set alone. -/
theorem copyFromPreviousDay_spec_witness :
    (0 : Nat) < 1 ∧
    (∃ m2, copyFromPreviousDay (fun _ => ({"A"} : Finset String)) 100 1 = .ok m2 ∧
      m2 (100 + 1) = (fun _ => ({"A"} : Finset String)) (100 + (1 - 1)) ∧
      (∀ i : String,
        handleToggleItem m2 (100 + 1) i (100 + (1 - 1)) =
          (fun _ => ({"A"} : Finset String)) (100 + (1 - 1)))) :=
  ⟨by decide,
   (copyFromPreviousDay_spec (fun _ => ({"A"} : Finset String)) 100 1 (by decide)).2
     (by decide)⟩

/-- A cart entry of CustomerApp: a menu item plus a quantity. -/
structure CartItem extends MenuItem where
  quantity : Nat
deriving DecidableEq

/-- One order line as stored by the server: menuItemId, quantity, and the
name/price snapshot taken at order time. -/
structure OrderLine where
  menuItemId : String
  quantity : Nat
  name : String
  price : Nat
deriving DecidableEq

/-- The order record built by the POST /orders handler. -/
structure Order where
  id : String
  customerName : String
  customerPhone : String
  customerOffice : String
  items : List OrderLine
  totalPrice : Nat
  orderDate : String
  createdAt : String
  pickedUp : Bool
deriving DecidableEq

/-- CustomerApp.addToCart: bump the quantity of an existing cart entry,
or append the item with quantity 1. -/
def addToCart (cart : List CartItem) (item : MenuItem) : List CartItem :=
  if cart.any (fun c => c.id == item.id) then
    cart.map (fun c => if c.id == item.id then { c with quantity := c.quantity + 1 } else c)
  else cart ++ [{ item with quantity := 1 }]

/-- CustomerApp.updateQuantity: shift a cart entry's quantity by delta,
dropping the entry when the new quantity reaches zero or below. -/
def updateQuantity (cart : List CartItem) (itemId : String) (delta : Int) : List CartItem :=
  cart.filterMap (fun item =>
    if item.id == itemId then
      let newQuantity : Int := (item.quantity : Int) + delta
      if newQuantity ≤ 0 then none else some { item with quantity := newQuantity.toNat }
    else some item)

/-- CustomerApp.getTotalPrice: reduce over price * quantity from 0. -/
def getTotalPrice (cart : List CartItem) : Nat :=
  cart.foldl (fun sum item => sum + item.price * item.quantity) 0

/-- The cart mutations available to the customer UI. -/
inductive CartOp where
  | add (item : MenuItem)
  | update (itemId : String) (delta : Int)

/-- Apply one cart mutation. -/
def applyCartOp (cart : List CartItem) : CartOp → List CartItem
  | .add item => addToCart cart item
  | .update itemId delta => updateQuantity cart itemId delta

/-- Run a sequence of cart mutations from the initial empty cart. -/
def runCart (ops : List CartOp) : List CartItem :=
  ops.foldl applyCartOp []

/-- createOrder: the CustomerApp.handleCheckout validation and payload
construction composed with the POST /orders handler, which assigns the
fresh identifier and creation timestamp (both passed in here), stores the
client-computed totalPrice, and defaults pickedUp to false. -/
def createOrder (customerName customerPhone customerOffice : String)
    (cart : List CartItem) (selectedDate : String) (newId createdAt : String) :
    Except AppError Order :=
  if jsTrim customerName == "" || jsTrim customerPhone == "" || jsTrim customerOffice == "" then
    .error (.validationError "請填寫完整的訂購資訊（姓名、電話、辦公室）")
  else if cart.length == 0 then
    .error (.validationError "購物車是空的")
  else
    .ok
      { id := newId
        customerName := customerName
        customerPhone := customerPhone
        customerOffice := customerOffice
        items := cart.map (fun item => ⟨item.id, item.quantity, item.name, item.price⟩)
        totalPrice := getTotalPrice cart
        orderDate := selectedDate
        createdAt := createdAt
        pickedUp := false }

/-- C1 counterexample: a call whose single line has quantity 0 is accepted
(no ValidationError), so createOrder does not reject lines with
quantity < 1. -/
theorem createOrder_counterexample :
    createOrder "a" "b" "c" [⟨⟨"x", "r", "n", "", 50, ""⟩, 0⟩] "2026-03-10" "id1" "t1"
      = .ok
        { id := "id1", customerName := "a", customerPhone := "b", customerOffice := "c",
          items := [⟨"x", 0, "n", 50⟩], totalPrice := 0,
          orderDate := "2026-03-10", createdAt := "t1", pickedUp := false } := rfl

theorem foldl_add_hom (f : CartItem → Nat) (cart : List CartItem) (a : Nat) :
    cart.foldl (fun s c => s + f c) a = a + (cart.map f).sum := by
  induction cart generalizing a with
  | nil => simp
  | cons c cs ih =>
    simp only [List.foldl_cons, List.map_cons, List.sum_cons, ih]
    omega

theorem getTotalPrice_eq_sum (cart : List CartItem) :
    getTotalPrice cart = (cart.map (fun c => c.price * c.quantity)).sum := by
  unfold getTotalPrice
  rw [foldl_add_hom]
  simp

theorem applyCartOp_invariant (cart : List CartItem)
    (h : ∀ c ∈ cart, 1 ≤ c.quantity) (op : CartOp) :
    ∀ c ∈ applyCartOp cart op, 1 ≤ c.quantity := by
  cases op with
  | add item =>
    simp only [applyCartOp, addToCart]
    split
    · intro c hc
      rw [List.mem_map] at hc
      obtain ⟨c0, hc0, hceq⟩ := hc
      by_cases hid : (c0.id == item.id) = true
      · rw [if_pos hid] at hceq
        subst hceq
        simp
      · rw [if_neg hid] at hceq
        subst hceq
        exact h c0 hc0
    · intro c hc
      rw [List.mem_append] at hc
      cases hc with
      | inl hmem => exact h c hmem
      | inr hone =>
        rw [List.mem_singleton] at hone
        subst hone
        simp
  | update itemId delta =>
    simp only [applyCartOp, updateQuantity]
    intro c hc
    rw [List.mem_filterMap] at hc
    obtain ⟨c0, hc0, hsome⟩ := hc
    by_cases hid : (c0.id == itemId) = true
    · rw [if_pos hid] at hsome
      by_cases hq : ((c0.quantity : Int) + delta) ≤ 0
      · rw [if_pos hq] at hsome
        exact absurd hsome (by simp)
      · rw [if_neg hq] at hsome
        rw [Option.some.injEq] at hsome
        subst hsome
        simp only []
        omega
    · rw [if_neg hid] at hsome
      rw [Option.some.injEq] at hsome
      subst hsome
      exact h c0 hc0

theorem foldl_cart_invariant (ops : List CartOp) (cart : List CartItem)
    (h : ∀ c ∈ cart, 1 ≤ c.quantity) :
    ∀ c ∈ ops.foldl applyCartOp cart, 1 ≤ c.quantity := by
  induction ops generalizing cart with
  | nil => exact h
  | cons op ops ih =>
    exact ih (applyCartOp cart op) (applyCartOp_invariant cart h op)

/-- C1 amended: createOrder rejects an empty line list with a
ValidationError; it performs no quantity check itself, but every cart
reachable through the UI cart operations has quantity at least 1 on all
lines; for every accepted call the stored totalPrice is the sum of
price * quantity over the lines, and the scenario cart with (50, qty 2)
and (30, qty 1) totals 130. -/
theorem createOrder_spec (name phone office date oid ts : String) (cart : List CartItem) :
    (cart = [] → jsTrim name ≠ "" → jsTrim phone ≠ "" → jsTrim office ≠ "" →
      createOrder name phone office cart date oid ts =
        .error (.validationError "購物車是空的")) ∧
    (∀ o, createOrder name phone office cart date oid ts = .ok o →
      o.totalPrice = (o.items.map (fun l => l.price * l.quantity)).sum ∧
      o.pickedUp = false) ∧
    (∀ ops : List CartOp, ∀ c ∈ runCart ops, 1 ≤ c.quantity) ∧
    (∃ o, createOrder "陳" "0912" "A棟"
        [⟨⟨"x", "r1", "x", "", 50, ""⟩, 2⟩, ⟨⟨"y", "r1", "y", "", 30, ""⟩, 1⟩]
        "2026-03-10" "id1" "t1" = .ok o ∧ o.totalPrice = 130) := by
  refine ⟨?_, ?_, ?_, ?_⟩
  · intro hc h1 h2 h3
    subst hc
    have e1 : (jsTrim name == "") = false := beq_eq_false_iff_ne.mpr h1
    have e2 : (jsTrim phone == "") = false := beq_eq_false_iff_ne.mpr h2
    have e3 : (jsTrim office == "") = false := beq_eq_false_iff_ne.mpr h3
    simp [createOrder, e1, e2, e3]
  · intro o ho
    unfold createOrder at ho
    by_cases h1 : (jsTrim name == "" || jsTrim phone == "" || jsTrim office == "") = true
    · rw [if_pos h1] at ho
      exact absurd ho (by simp)
    · rw [if_neg h1] at ho
      by_cases h2 : (cart.length == 0) = true
      · rw [if_pos h2] at ho
        exact absurd ho (by simp)
      · rw [if_neg h2] at ho
        rw [Except.ok.injEq] at ho
        subst ho
        refine ⟨?_, rfl⟩
        show getTotalPrice cart = _
        rw [getTotalPrice_eq_sum, List.map_map]
        rfl
  · intro ops
    exact foldl_cart_invariant ops [] (by simp)
  · exact ⟨_, rfl, rfl⟩

/-- C1 witness: an empty cart with filled-in customer info is rejected,
and the scenario order totals 130. -/
theorem createOrder_spec_witness :
    createOrder "王" "0900" "B1" [] "2026-03-11" "id9" "t9" =
      .error (.validationError "購物車是空的") ∧
    (∃ o, createOrder "陳" "0912" "A棟"
        [⟨⟨"x", "r1", "x", "", 50, ""⟩, 2⟩, ⟨⟨"y", "r1", "y", "", 30, ""⟩, 1⟩]
        "2026-03-10" "id1" "t1" = .ok o ∧ o.totalPrice = 130) :=
  ⟨(createOrder_spec "王" "0900" "B1" "2026-03-11" "id9" "t9" []).1 rfl
      (by decide) (by decide) (by decide),
   (createOrder_spec "王" "0900" "B1" "2026-03-11" "id9" "t9" []).2.2.2⟩

/-- The order partition of the key-value store, keyed by order id
(the server uses keys of the form order:id, in bijection with the ids). -/
def OrderStore : Type := String → Option Order

/-- Lookup of one order by id, as the pickup flow's kv.get performs. -/
def findById (store : OrderStore) (oid : String) : Option Order :=
  store oid

/-- PUT /orders/:id handler: 404 when the id is absent, otherwise
overwrite the record with a copy whose pickedUp flag is replaced. -/
def setPickedUp (store : OrderStore) (oid : String) (p : Bool) :
    Except AppError OrderStore :=
  match store oid with
  | none => .error (.notFound "Order not found")
  | some o => .ok (fun k => if k = oid then some { o with pickedUp := p } else store k)

/-- C8: setPickedUp fails with NotFound on an unknown id (no store is
produced, so nothing is written); on a known id it returns a store whose
record at that id has the new flag and every other field unchanged, is
what findById then returns, and all other ids keep their records. -/
theorem setPickedUp_spec (store : OrderStore) (oid : String) (p : Bool) :
    (store oid = none → setPickedUp store oid p = .error (.notFound "Order not found")) ∧
    (∀ o, store oid = some o →
      ∃ store2, setPickedUp store oid p = .ok store2 ∧
        findById store2 oid = some { o with pickedUp := p } ∧
        (∀ o2, findById store2 oid = some o2 →
          o2.pickedUp = p ∧ o2.id = o.id ∧ o2.customerName = o.customerName ∧
          o2.customerPhone = o.customerPhone ∧ o2.customerOffice = o.customerOffice ∧
          o2.items = o.items ∧ o2.totalPrice = o.totalPrice ∧
          o2.orderDate = o.orderDate ∧ o2.createdAt = o.createdAt) ∧
        (∀ k, k ≠ oid → store2 k = store k)) := by
  constructor
  · intro h
    simp [setPickedUp, h]
  · intro o h
    refine ⟨fun k => if k = oid then some { o with pickedUp := p } else store k,
      ?_, ?_, ?_, ?_⟩
    · simp [setPickedUp, h]
    · simp [findById]
    · intro o2 ho2
      have ho2e : o2 = { o with pickedUp := p } := by
        simpa [findById] using ho2.symm
      subst ho2e
      exact ⟨rfl, rfl, rfl, rfl, rfl, rfl, rfl, rfl, rfl⟩
    · intro k hk
      simp [hk]

/-- A sample stored order for the C8 scenario. -/
def sampleOrder : Order :=
  ⟨"o1", "Alice", "0912345678", "Office A", [⟨"x", 2, "便當", 50⟩], 100,
   "2026-03-10", "T0", false⟩

/-- The one-order sample store for the C8 scenario. -/
def sampleStore : OrderStore :=
  fun k => if k = "o1" then some sampleOrder else none

/-- C8 witness: marking order o1 picked up in the sample store, findById
returns the order with pickedUp set. -/
theorem setPickedUp_spec_witness :
    sampleStore "o1" = some sampleOrder ∧
    (∃ store2, setPickedUp sampleStore "o1" true = .ok store2 ∧
      findById store2 "o1" = some { sampleOrder with pickedUp := true }) :=
  ⟨rfl,
   ((setPickedUp_spec sampleStore "o1" true).2 sampleOrder rfl).elim
     (fun store2 hs => ⟨store2, hs.1, hs.2.1⟩)⟩

/-- A DailyMenu record as written by the daily-menu handlers. -/
structure DailyMenu where
  date : String
  menuItemIds : List String
  updatedAt : Option String
deriving DecidableEq

/-- The dailyMenu partition of the key-value store as an association
list keyed by the full kv key string. -/
abbrev DailyMenuStore : Type := List (String × DailyMenu)

/-- kv.set: upsert — replace the value under an existing key, otherwise
append the new pair. -/
def kvSet (store : DailyMenuStore) (key : String) (v : DailyMenu) : DailyMenuStore :=
  if store.any (fun p => p.1 == key) then
    store.map (fun p => if p.1 == key then (key, v) else p)
  else store ++ [(key, v)]

/-- Whether the first character list is an initial segment of the second. -/
def listIsInit : List Char → List Char → Bool
  | [], _ => true
  | _ :: _, [] => false
  | a :: as, b :: bs => a == b && listIsInit as bs

/-- Whether a kv key starts with the given namespace string. -/
def keyMatches (key pre : String) : Bool :=
  listIsInit pre.data key.data

/-- kv.getByPrefix: values of the entries whose key starts with the
namespace string. -/
def getByKeyStart (store : DailyMenuStore) (pre : String) : List DailyMenu :=
  (store.filter (fun p => keyMatches p.1 pre)).map (fun p => p.2)

/-- JS string <=: code-unit lexicographic comparison, which on the
fixed-width YYYY-MM-DD form is date order. -/
def jsLeChars : List Char → List Char → Bool
  | [], _ => true
  | _ :: _, [] => false
  | a :: as, b :: bs => if a = b then jsLeChars as bs else decide (a < b)

/-- JS string <= on strings. -/
def jsLe (s t : String) : Bool :=
  jsLeChars s.data t.data

/-- POST /daily-menu/:date handler: upsert the DailyMenu record under key
dailyMenu:date, stamping the current instant. -/
def setDailyMenu (store : DailyMenuStore) (date : String)
    (menuItemIds : List String) (now : String) : DailyMenuStore :=
  kvSet store ("dailyMenu:" ++ date) ⟨date, menuItemIds, some now⟩

/-- GET /weekly-menu handler: reject a missing (or empty, which JS treats
as falsy too) bound with HTTP 400, otherwise return the stored menus
whose date lies in the inclusive range. -/
def getWeeklyMenus (store : DailyMenuStore) (s2 e2 : Option String) :
    Except (Nat × String) (List DailyMenu) :=
  let startDate := s2.getD ""
  let endDate := e2.getD ""
  if startDate == "" || endDate == "" then
    .error (400, "startDate and endDate are required")
  else
    .ok ((getByKeyStart store "dailyMenu:").filter
      (fun menu => jsLe startDate menu.date && jsLe menu.date endDate))

/-- C9: saving the selection A, B for 2026-03-10 into the empty store and
reading the inclusive range 2026-03-09 to 2026-03-11 returns exactly the
one DailyMenu for 2026-03-10 with item ids A, B. -/
theorem getRange_scenario :
    getWeeklyMenus (setDailyMenu [] "2026-03-10" ["A", "B"] "T0")
      (some "2026-03-09") (some "2026-03-11")
      = .ok [⟨"2026-03-10", ["A", "B"], some "T0"⟩] := rfl

/-- C10: a range read with a missing startDate or a missing endDate fails
with HTTP 400 and the message startDate and endDate are required,
returning no menus. -/
theorem weeklyMenu_missing_bound (store : DailyMenuStore) (s2 e2 : Option String) :
    getWeeklyMenus store none e2 = .error (400, "startDate and endDate are required") ∧
    getWeeklyMenus store s2 none = .error (400, "startDate and endDate are required") := by
  constructor
  · simp [getWeeklyMenus]
  · simp [getWeeklyMenus]
